import Mathlib

/-!
Verification of the PCM-to-WAV encoder of `src/utils/audio.ts`.

The TypeScript source is embedded shallowly:
  * a byte buffer (JS `ArrayBuffer` viewed through a `DataView`) is a
    `List Nat` whose entries are byte values;
  * the `DataView` setters (`setUint8`, `setUint16`, `setUint32`, `setInt16`,
    little-endian flag true) become functions returning `Except`: a JS
    `DataView` setter throws a `RangeError` when the write would fall outside
    the buffer, which the embedding records as an error value;
  * `atob` is the WHATWG forgiving-base64 decoder; `decode` turns its binary
    string into the byte values of its code units;
  * `new Int16Array(buffer)` reinterprets the bytes pairwise as little-endian
    two's-complement 16-bit integers (host order; every supported target is
    little-endian) and throws a `RangeError` when the byte length is odd,
    which the embedding records as `malformedAudioError`;
  * the error kinds name the abstract error classes of the pipeline:
    base64 failures (`atob` throwing `InvalidCharacterError`), odd-length
    reinterpretation failures, format-validation failures, and out-of-bounds
    buffer writes.
-/

namespace MovieRecap

/-- Abstract error kinds of the audio pipeline. -/
inductive AudioError where
  | decodeError
  | malformedAudioError
  | invalidFormatError
  | rangeError
deriving DecidableEq

/-- A byte buffer: the shallow embedding of a JS `ArrayBuffer`/`DataView`. -/
abbrev Buf := List Nat

/-- `DataView.setUint8(off, v)`: stores the low byte of `v` at `off`;
throws (`rangeError`) when `off` is outside the buffer. -/
def setUint8 (buf : Buf) (off v : Nat) : Except AudioError Buf :=
  if off < buf.length then .ok (buf.set off (v % 256)) else .error .rangeError

/-- `DataView.setUint16(off, v, true)`: stores `v mod 2^16` little-endian. -/
def setUint16 (buf : Buf) (off v : Nat) : Except AudioError Buf :=
  if off + 2 ≤ buf.length then
    .ok ((buf.set off (v % 256)).set (off + 1) (v / 256 % 256))
  else .error .rangeError

/-- `DataView.setUint32(off, v, true)`: stores `v mod 2^32` little-endian. -/
def setUint32 (buf : Buf) (off v : Nat) : Except AudioError Buf :=
  if off + 4 ≤ buf.length then
    .ok ((((buf.set off (v % 256)).set (off + 1) (v / 256 % 256)).set
      (off + 2) (v / 65536 % 256)).set (off + 3) (v / 16777216 % 256))
  else .error .rangeError

/-- `DataView.setInt16(off, v, true)`: `ToInt16` conversion stores the two
bytes of `v mod 2^16` little-endian. -/
def setInt16 (buf : Buf) (off : Nat) (v : Int) : Except AudioError Buf :=
  setUint16 buf off ((v % 65536).toNat)

/-- The loop body of `writeString`: write the code units of the characters
at consecutive offsets through `setUint8`. -/
def writeChars (view : Buf) (offset : Nat) : List Char → Except AudioError Buf
  | [] => .ok view
  | ch :: rest => do
    let b ← setUint8 view offset ch.toNat
    writeChars b (offset + 1) rest

/-- `writeString(view, offset, string)` from `src/utils/audio.ts`. -/
def writeString (view : Buf) (offset : Nat) (s : String) : Except AudioError Buf :=
  writeChars view offset s.data

/-- The sample-writing loop of `encodeWAV`: the `i`-th sample is written by
`setInt16` at offset `44 + i*2`, i.e. at consecutive even offsets from 44. -/
def writeSamples (view : Buf) (offset : Nat) : List Int → Except AudioError Buf
  | [] => .ok view
  | s :: rest => do
    let b ← setInt16 view offset s
    writeSamples b (offset + 2) rest

/-- `encodeWAV(samples, sampleRate, numChannels)` from `src/utils/audio.ts`:
allocates `44 + samples.length * 2` bytes, writes the 44-byte RIFF/WAVE
header, then the samples. -/
def encodeWAV (samples : List Int) (sampleRate numChannels : Nat) :
    Except AudioError Buf := do
  let buffer := List.replicate (44 + samples.length * 2) 0
  let b ← writeString buffer 0 "RIFF"
  let b ← setUint32 b 4 (36 + samples.length * 2)
  let b ← writeString b 8 "WAVE"
  let b ← writeString b 12 "fmt "
  let b ← setUint32 b 16 16
  let b ← setUint16 b 20 1
  let b ← setUint16 b 22 numChannels
  let b ← setUint32 b 24 sampleRate
  let b ← setUint32 b 28 (sampleRate * numChannels * 2)
  let b ← setUint16 b 32 (numChannels * 2)
  let b ← setUint16 b 34 16
  let b ← writeString b 36 "data"
  let b ← setUint32 b 40 (samples.length * 2)
  writeSamples b 44 samples

/-- Value of a standard-alphabet base64 character. -/
def b64Index (c : Char) : Option Nat :=
  if 65 ≤ c.toNat ∧ c.toNat ≤ 90 then some (c.toNat - 65)
  else if 97 ≤ c.toNat ∧ c.toNat ≤ 122 then some (c.toNat - 97 + 26)
  else if 48 ≤ c.toNat ∧ c.toNat ≤ 57 then some (c.toNat - 48 + 52)
  else if c = '+' then some 62
  else if c = '/' then some 63
  else none

/-- ASCII whitespace, removed by forgiving-base64 before decoding. -/
def isB64Space (c : Char) : Bool :=
  c.toNat = 9 || c.toNat = 10 || c.toNat = 12 || c.toNat = 13 || c.toNat = 32

/-- Strip up to two trailing `=` padding characters when the length is a
multiple of four, as forgiving-base64 does. -/
def stripB64Padding (cs : List Char) : List Char :=
  if cs.length % 4 = 0 then
    match cs.reverse with
    | '=' :: '=' :: rest => rest.reverse
    | '=' :: rest => rest.reverse
    | _ => cs
  else cs

/-- Map every character to its 6-bit value; `none` on an alphabet violation. -/
def b64Vals : List Char → Option (List Nat)
  | [] => some []
  | c :: rest => do
    let v ← b64Index c
    let vs ← b64Vals rest
    some (v :: vs)

/-- Reassemble 6-bit values into bytes: full groups of four give three bytes,
a final group of two or three gives one or two bytes, a trailing single
value is an error (length ≡ 1 mod 4). -/
def b64Bytes : List Nat → Option (List Nat)
  | [] => some []
  | [_] => none
  | [v1, v2] => some [v1 * 4 + v2 / 16]
  | [v1, v2, v3] => some [v1 * 4 + v2 / 16, v2 % 16 * 16 + v3 / 4]
  | v1 :: v2 :: v3 :: v4 :: rest => do
    let bs ← b64Bytes rest
    some ((v1 * 4 + v2 / 16) :: (v2 % 16 * 16 + v3 / 4) :: (v3 % 4 * 64 + v4) :: bs)

/-- `atob(s)`: WHATWG forgiving-base64 decode, yielding the byte values of
the binary string's code units; throws (`decodeError`) on invalid input. -/
def atob (s : String) : Except AudioError (List Nat) :=
  let cs := stripB64Padding (s.data.filter (fun c => !(isB64Space c)))
  match b64Vals cs with
  | none => .error .decodeError
  | some vs =>
    match b64Bytes vs with
    | none => .error .decodeError
    | some bs => .ok bs

/-- `decode(base64)` from `src/utils/audio.ts`: `atob` followed by reading
each code unit of the binary string with `charCodeAt`, which yields exactly
the byte values `atob` produced. -/
def decode (base64 : String) : Except AudioError (List Nat) :=
  atob base64

/-- Reinterpret a little-endian byte pair as a signed 16-bit integer. -/
def toInt16 (lo hi : Nat) : Int :=
  if lo + hi * 256 < 32768 then (lo + hi * 256 : Nat)
  else (lo + hi * 256 : Nat) - 65536

/-- `new Int16Array(rawData.buffer)`: pairwise little-endian reinterpretation
of the bytes; throws (`malformedAudioError`) when the byte length is odd. -/
def bytesToInt16 : List Nat → Except AudioError (List Int)
  | [] => .ok []
  | [_] => .error .malformedAudioError
  | lo :: hi :: rest => do
    let t ← bytesToInt16 rest
    .ok (toInt16 lo hi :: t)

/-- `createWavBlob(base64Audio)` from `src/utils/audio.ts`: decode the
base64, reinterpret as 16-bit samples, and encode with the hard-coded
format `sampleRate = 24000`, `numChannels = 1`. -/
def createWavBlob (base64Audio : String) : Except AudioError Buf := do
  let rawData ← decode base64Audio
  let pcmData ← bytesToInt16 rawData
  encodeWAV pcmData 24000 1

/-- The two little-endian bytes of `v mod 2^16`. -/
def u16le (v : Nat) : List Nat := [v % 256, v / 256 % 256]

/-- The four little-endian bytes of `v mod 2^32`. -/
def u32le (v : Nat) : List Nat :=
  [v % 256, v / 256 % 256, v / 65536 % 256, v / 16777216 % 256]

/-- The 44 header bytes `encodeWAV` produces for `n` samples:
"RIFF", ChunkSize, "WAVE", "fmt ", Subchunk1Size 16, AudioFormat 1,
NumChannels, SampleRate, ByteRate, BlockAlign, BitsPerSample 16,
"data", Subchunk2Size. -/
def headerBytes (n sampleRate numChannels : Nat) : List Nat :=
  [82, 73, 70, 70] ++ u32le (36 + n * 2) ++ [87, 65, 86, 69] ++
    [102, 109, 116, 32] ++ u32le 16 ++ u16le 1 ++ u16le numChannels ++
    u32le sampleRate ++ u32le (sampleRate * numChannels * 2) ++
    u16le (numChannels * 2) ++ u16le 16 ++ [100, 97, 116, 97] ++
    u32le (n * 2)

/-- The sample bytes `encodeWAV` appends after the header: each sample
contributes the two little-endian bytes of its value mod 2^16. -/
def sampleBytes : List Int → List Nat
  | [] => []
  | s :: rest =>
    (((s % 65536).toNat) % 256) :: (((s % 65536).toNat) / 256 % 256) ::
      sampleBytes rest

/-! ### Buffer-write normal forms -/

theorem ok_bind {α β : Type} (a : α) (f : α → Except AudioError β) :
    (Except.ok a >>= f) = f a := rfl

theorem set_append_of_lt {α : Type} {s t : List α} {i : Nat} {x : α}
    (h : i < s.length) : (s ++ t).set i x = s.set i x ++ t := by
  rw [List.set_append, if_pos h]

theorem set_append_len {α : Type} (s t : List α) (x : α) :
    (s ++ t).set s.length x = s ++ t.set 0 x := by
  rw [List.set_append, if_neg (by omega), Nat.sub_self]

theorem set_append_len1 {α : Type} (s t : List α) (x : α) :
    (s ++ t).set (s.length + 1) x = s ++ t.set 1 x := by
  rw [List.set_append, if_neg (by omega), Nat.add_sub_cancel_left]

theorem setUint8_append (a b : Buf) (off v : Nat) (h : off < a.length) :
    setUint8 (a ++ b) off v = .ok (a.set off (v % 256) ++ b) := by
  have hc : off < (a ++ b).length := by simp; omega
  rw [setUint8, if_pos hc, set_append_of_lt h]

theorem setUint16_append (a b : Buf) (off v : Nat) (h : off + 2 ≤ a.length) :
    setUint16 (a ++ b) off v
      = .ok ((a.set off (v % 256)).set (off + 1) (v / 256 % 256) ++ b) := by
  have hc : off + 2 ≤ (a ++ b).length := by simp; omega
  rw [setUint16, if_pos hc, set_append_of_lt (by omega),
    set_append_of_lt (by simp; omega)]

theorem setUint32_append (a b : Buf) (off v : Nat) (h : off + 4 ≤ a.length) :
    setUint32 (a ++ b) off v
      = .ok ((((a.set off (v % 256)).set (off + 1) (v / 256 % 256)).set
          (off + 2) (v / 65536 % 256)).set (off + 3) (v / 16777216 % 256)
          ++ b) := by
  have hc : off + 4 ≤ (a ++ b).length := by simp; omega
  rw [setUint32, if_pos hc, set_append_of_lt (by omega),
    set_append_of_lt (by simp; omega), set_append_of_lt (by simp; omega),
    set_append_of_lt (by simp; omega)]

theorem writeString_RIFF (a b : Buf) (h : 4 ≤ a.length) :
    writeString (a ++ b) 0 "RIFF"
      = .ok ((((a.set 0 82).set 1 73).set 2 70).set 3 70 ++ b) := by
  show writeChars (a ++ b) 0 ['R', 'I', 'F', 'F'] = _
  simp only [writeChars]
  rw [setUint8_append _ _ _ _ (by omega)]
  simp only [ok_bind]
  rw [setUint8_append _ _ _ _ (by simp only [List.length_set]; omega)]
  simp only [ok_bind]
  rw [setUint8_append _ _ _ _ (by simp only [List.length_set]; omega)]
  simp only [ok_bind]
  rw [setUint8_append _ _ _ _ (by simp only [List.length_set]; omega)]
  simp only [ok_bind]
  rfl

theorem writeString_WAVE (a b : Buf) (h : 12 ≤ a.length) :
    writeString (a ++ b) 8 "WAVE"
      = .ok ((((a.set 8 87).set 9 65).set 10 86).set 11 69 ++ b) := by
  show writeChars (a ++ b) 8 ['W', 'A', 'V', 'E'] = _
  simp only [writeChars]
  rw [setUint8_append _ _ _ _ (by omega)]
  simp only [ok_bind]
  rw [setUint8_append _ _ _ _ (by simp only [List.length_set]; omega)]
  simp only [ok_bind]
  rw [setUint8_append _ _ _ _ (by simp only [List.length_set]; omega)]
  simp only [ok_bind]
  rw [setUint8_append _ _ _ _ (by simp only [List.length_set]; omega)]
  simp only [ok_bind]
  rfl

theorem writeString_fmt (a b : Buf) (h : 16 ≤ a.length) :
    writeString (a ++ b) 12 "fmt "
      = .ok ((((a.set 12 102).set 13 109).set 14 116).set 15 32 ++ b) := by
  show writeChars (a ++ b) 12 ['f', 'm', 't', ' '] = _
  simp only [writeChars]
  rw [setUint8_append _ _ _ _ (by omega)]
  simp only [ok_bind]
  rw [setUint8_append _ _ _ _ (by simp only [List.length_set]; omega)]
  simp only [ok_bind]
  rw [setUint8_append _ _ _ _ (by simp only [List.length_set]; omega)]
  simp only [ok_bind]
  rw [setUint8_append _ _ _ _ (by simp only [List.length_set]; omega)]
  simp only [ok_bind]
  rfl

theorem writeString_data (a b : Buf) (h : 40 ≤ a.length) :
    writeString (a ++ b) 36 "data"
      = .ok ((((a.set 36 100).set 37 97).set 38 116).set 39 97 ++ b) := by
  show writeChars (a ++ b) 36 ['d', 'a', 't', 'a'] = _
  simp only [writeChars]
  rw [setUint8_append _ _ _ _ (by omega)]
  simp only [ok_bind]
  rw [setUint8_append _ _ _ _ (by simp only [List.length_set]; omega)]
  simp only [ok_bind]
  rw [setUint8_append _ _ _ _ (by simp only [List.length_set]; omega)]
  simp only [ok_bind]
  rw [setUint8_append _ _ _ _ (by simp only [List.length_set]; omega)]
  simp only [ok_bind]
  rfl

theorem writeSamples_append (samples : List Int) (H : Buf) (off : Nat)
    (h : off = H.length) :
    writeSamples (H ++ List.replicate (samples.length * 2) 0) off samples
      = .ok (H ++ sampleBytes samples) := by
  induction samples generalizing H off with
  | nil => simp [writeSamples, sampleBytes]
  | cons s rest ih =>
    subst h
    have hn : (s :: rest).length * 2 = (rest.length * 2 + 1) + 1 := by
      simp only [List.length_cons]; omega
    rw [hn, List.replicate_succ, List.replicate_succ]
    simp only [writeSamples]
    rw [setInt16, setUint16,
      if_pos (by simp only [List.length_append, List.length_cons]; omega)]
    rw [set_append_len, set_append_len1]
    simp only [List.set, ok_bind]
    have hassoc :
        H ++ (((s % 65536).toNat) % 256) ::
            (((s % 65536).toNat) / 256 % 256) ::
            List.replicate (rest.length * 2) 0
          = (H ++ [((s % 65536).toNat) % 256,
              ((s % 65536).toNat) / 256 % 256])
            ++ List.replicate (rest.length * 2) 0 := by
      simp
    rw [hassoc, ih _ (H.length + 2) (by simp)]
    simp [sampleBytes]

set_option maxHeartbeats 1000000 in
/-- Master normal form: `encodeWAV` always succeeds and its output is the
44-byte header followed by the little-endian sample bytes. -/
theorem encodeWAV_eq (samples : List Int) (r c : Nat) :
    encodeWAV samples r c
      = .ok (headerBytes samples.length r c ++ sampleBytes samples) := by
  simp only [encodeWAV]
  rw [List.replicate_add]
  rw [show List.replicate 44 (0:Nat)
    = [0,0,0,0,0,0,0,0,0,0,0,0,0,0,0,0,0,0,0,0,0,0,
       0,0,0,0,0,0,0,0,0,0,0,0,0,0,0,0,0,0,0,0,0,0] from rfl]
  rw [writeString_RIFF _ _ (by simp)]
  simp only [ok_bind, List.set_cons_succ, List.set_cons_zero, Nat.reduceAdd]
  rw [setUint32_append _ _ _ _ (by simp)]
  simp only [ok_bind, List.set_cons_succ, List.set_cons_zero, Nat.reduceAdd]
  rw [writeString_WAVE _ _ (by simp)]
  simp only [ok_bind, List.set_cons_succ, List.set_cons_zero, Nat.reduceAdd]
  rw [writeString_fmt _ _ (by simp)]
  simp only [ok_bind, List.set_cons_succ, List.set_cons_zero, Nat.reduceAdd]
  rw [setUint32_append _ _ _ _ (by simp)]
  simp only [ok_bind, List.set_cons_succ, List.set_cons_zero, Nat.reduceAdd]
  rw [setUint16_append _ _ _ _ (by simp)]
  simp only [ok_bind, List.set_cons_succ, List.set_cons_zero, Nat.reduceAdd]
  rw [setUint16_append _ _ _ _ (by simp)]
  simp only [ok_bind, List.set_cons_succ, List.set_cons_zero, Nat.reduceAdd]
  rw [setUint32_append _ _ _ _ (by simp)]
  simp only [ok_bind, List.set_cons_succ, List.set_cons_zero, Nat.reduceAdd]
  rw [setUint32_append _ _ _ _ (by simp)]
  simp only [ok_bind, List.set_cons_succ, List.set_cons_zero, Nat.reduceAdd]
  rw [setUint16_append _ _ _ _ (by simp)]
  simp only [ok_bind, List.set_cons_succ, List.set_cons_zero, Nat.reduceAdd]
  rw [setUint16_append _ _ _ _ (by simp)]
  simp only [ok_bind, List.set_cons_succ, List.set_cons_zero, Nat.reduceAdd]
  rw [writeString_data _ _ (by simp)]
  simp only [ok_bind, List.set_cons_succ, List.set_cons_zero, Nat.reduceAdd]
  rw [setUint32_append _ _ _ _ (by simp)]
  simp only [ok_bind, List.set_cons_succ, List.set_cons_zero, Nat.reduceAdd]
  rw [writeSamples_append samples _ 44 (by simp)]
  refine congrArg Except.ok ?_
  refine congrArg (fun l => l ++ sampleBytes samples) ?_
  simp [headerBytes, u16le, u32le]

/-! ### Length and slice facts -/

theorem err_bind {α β : Type} (e : AudioError)
    (f : α → Except AudioError β) :
    ((Except.error e : Except AudioError α) >>= f) = .error e := rfl

theorem headerBytes_length (n r c : Nat) : (headerBytes n r c).length = 44 := by
  simp [headerBytes, u16le, u32le]

theorem sampleBytes_length (l : List Int) :
    (sampleBytes l).length = l.length * 2 := by
  induction l with
  | nil => rfl
  | cons s rest ih => simp [sampleBytes, ih]; omega

theorem headerBytes_drop40 (n r c : Nat) :
    (headerBytes n r c).drop 40 = u32le (n * 2) := by
  simp [headerBytes, u16le, u32le]

theorem headerBytes_drop4_take4 (n r c : Nat) :
    ((headerBytes n r c).drop 4).take 4 = u32le (36 + n * 2) := by
  simp [headerBytes, u16le, u32le]

theorem headerBytes_drop22_take2 (n : Nat) :
    ((headerBytes n 24000 1).drop 22).take 2 = [1, 0] := by
  simp [headerBytes, u16le, u32le]

theorem headerBytes_drop24_take4 (n : Nat) :
    ((headerBytes n 24000 1).drop 24).take 4 = [192, 93, 0, 0] := by
  simp [headerBytes, u16le, u32le]

/-! ### The sample reinterpretation -/

theorem bytesToInt16_odd :
    ∀ bs : List Nat, bs.length % 2 = 1 →
      bytesToInt16 bs = .error .malformedAudioError := by
  intro bs
  induction bs using bytesToInt16.induct with
  | case1 => intro h; simp at h
  | case2 x => intro _; rfl
  | case3 lo hi rest ih =>
    intro h
    have hr : rest.length % 2 = 1 := by simp at h; omega
    show (bytesToInt16 rest >>= fun t => .ok (toInt16 lo hi :: t)) = _
    rw [ih hr, err_bind]

theorem bytesToInt16_even :
    ∀ bs : List Nat, (∀ b ∈ bs, b < 256) → bs.length % 2 = 0 →
      ∃ smp, bytesToInt16 bs = .ok smp ∧ smp.length = bs.length / 2 ∧
        sampleBytes smp = bs ∧
        ∀ i, i < smp.length →
          smp.getD i 0 = toInt16 (bs.getD (2 * i) 0) (bs.getD (2 * i + 1) 0) ∧
          -32768 ≤ smp.getD i 0 ∧ smp.getD i 0 < 32768 := by
  intro bs
  induction bs using bytesToInt16.induct with
  | case1 =>
    intro _ _
    exact ⟨[], rfl, rfl, rfl, by intro i hi; simp at hi⟩
  | case2 x => intro _ h; simp at h
  | case3 lo hi rest ih =>
    intro hb he
    have hlo : lo < 256 := hb lo (by simp)
    have hhi : hi < 256 := hb hi (by simp)
    obtain ⟨t, ht, hlen, hsb, hget⟩ :=
      ih (fun b hb' => hb b (by simp [hb'])) (by simp at he; omega)
    refine ⟨toInt16 lo hi :: t, ?_, ?_, ?_, ?_⟩
    · show (bytesToInt16 rest >>= fun t => .ok (toInt16 lo hi :: t)) = _
      rw [ht, ok_bind]
    · simp [hlen]; omega
    · have hround : ((toInt16 lo hi) % 65536).toNat = lo + hi * 256 := by
        rw [toInt16]
        split <;> omega
      simp only [sampleBytes, hround, hsb, List.cons.injEq]
      refine ⟨by omega, by omega, trivial⟩
    · intro i hi'
      cases i with
      | zero =>
        refine ⟨by simp, ?_, ?_⟩ <;>
          · simp only [List.getD_cons_zero, toInt16]
            split <;> omega
      | succ j =>
        have hj : j < t.length := by simpa using hi'
        obtain ⟨hv, hlb, hub⟩ := hget j hj
        have h2 : 2 * (j + 1) + 1 = 2 * j + 1 + 1 + 1 := by omega
        have h1 : 2 * (j + 1) = 2 * j + 1 + 1 := by omega
        refine ⟨?_, ?_, ?_⟩
        · rw [h2, h1]
          simpa [List.getD_cons_succ] using hv
        · simpa using hlb
        · simpa using hub

/-! ### Decoded bytes are bytes -/

theorem b64Index_lt {c : Char} {v : Nat} (h : b64Index c = some v) : v < 64 := by
  unfold b64Index at h
  repeat' split at h
  all_goals simp_all
  all_goals omega

theorem b64Vals_lt :
    ∀ cs vs, b64Vals cs = some vs → ∀ v ∈ vs, v < 64 := by
  intro cs
  induction cs with
  | nil =>
    intro vs h v hv
    simp only [b64Vals, Option.some.injEq] at h
    subst h
    simp at hv
  | cons c rest ih =>
    intro vs h v hv
    simp only [b64Vals, Option.bind_eq_bind, Option.bind_eq_some] at h
    obtain ⟨w, hw, vs', hvs', hlast⟩ := h
    obtain rfl : w :: vs' = vs := by simpa using hlast
    rcases List.mem_cons.mp hv with rfl | hv'
    · exact b64Index_lt hw
    · exact ih vs' hvs' v hv'

theorem b64Bytes_lt :
    ∀ vs bs, (∀ v ∈ vs, v < 64) → b64Bytes vs = some bs → ∀ b ∈ bs, b < 256 := by
  intro vs
  induction vs using b64Bytes.induct with
  | case1 =>
    intro bs _ h b hb
    simp only [b64Bytes, Option.some.injEq] at h
    subst h
    simp at hb
  | case2 x => intro bs _ h; simp [b64Bytes] at h
  | case3 v1 v2 =>
    intro bs hv h b hb
    have h1 : v1 < 64 := hv v1 (by simp)
    have h2 : v2 < 64 := hv v2 (by simp)
    simp only [b64Bytes, Option.some.injEq] at h
    subst h
    simp at hb
    omega
  | case4 v1 v2 v3 =>
    intro bs hv h b hb
    have h1 : v1 < 64 := hv v1 (by simp)
    have h2 : v2 < 64 := hv v2 (by simp)
    have h3 : v3 < 64 := hv v3 (by simp)
    simp only [b64Bytes, Option.some.injEq] at h
    subst h
    simp at hb
    rcases hb with rfl | rfl
    · omega
    · omega
  | case5 v1 v2 v3 v4 rest ih =>
    intro bs hv h b hb
    have h1 : v1 < 64 := hv v1 (by simp)
    have h2 : v2 < 64 := hv v2 (by simp)
    have h3 : v3 < 64 := hv v3 (by simp)
    have h4 : v4 < 64 := hv v4 (by simp)
    simp only [b64Bytes, Option.bind_eq_bind, Option.bind_eq_some,
      Option.some.injEq] at h
    obtain ⟨bs', hbs', rfl⟩ := h
    simp at hb
    rcases hb with rfl | rfl | rfl | hb'
    · omega
    · omega
    · omega
    · exact ih bs' (fun v hv' => hv v (by simp [hv'])) hbs' b hb'

theorem decode_lt {s : String} {bs : List Nat} (h : decode s = .ok bs) :
    ∀ b ∈ bs, b < 256 := by
  simp only [decode, atob] at h
  split at h
  · exact absurd h (by simp)
  next vs hv =>
    split at h
    · exact absurd h (by simp)
    next bs' hb =>
      have hbs : bs' = bs := by simpa using h
      subst hbs
      exact b64Bytes_lt vs bs' (b64Vals_lt _ vs hv) hb

/-- Pipeline normal form for `createWavBlob`. -/
theorem createWavBlob_eq {s : String} {bs : List Nat} {smp : List Int}
    (hd : decode s = .ok bs) (hs : bytesToInt16 bs = .ok smp) :
    createWavBlob s
      = .ok (headerBytes smp.length 24000 1 ++ sampleBytes smp) := by
  rw [createWavBlob, hd, ok_bind, hs, ok_bind, encodeWAV_eq]

/-- `createWavBlob` propagates the reinterpretation error on odd input. -/
theorem createWavBlob_odd {s : String} {bs : List Nat}
    (hd : decode s = .ok bs) (ho : bs.length % 2 = 1) :
    createWavBlob s = .error .malformedAudioError := by
  rw [createWavBlob, hd, ok_bind, bytesToInt16_odd bs ho, err_bind]

/-! ### Claim theorems -/

/-- C1: for every sample array, sample rate and channel count (with every
written value representable in its field width), the first 44 bytes of the
buffer produced by `encodeWAV` are exactly the canonical RIFF/WAVE/PCM
header: "RIFF", LE u32 ChunkSize `36 + dataBytes`, "WAVE", "fmt ",
LE u32 16, LE u16 1 (PCM), LE u16 numChannels, LE u32 sampleRate,
LE u32 byte rate, LE u16 block align, LE u16 16, "data",
LE u32 `dataBytes = sampleCount * 2`. -/
theorem encodeWAV_header_canonical (samples : List Int)
    (sampleRate numChannels : Nat)
    (hr : sampleRate < 4294967296) (hc : numChannels * 2 < 65536)
    (hbr : sampleRate * numChannels * 2 < 4294967296)
    (hd : 36 + samples.length * 2 < 4294967296) :
    ∃ buf, encodeWAV samples sampleRate numChannels = .ok buf ∧
      buf.take 44
        = [82, 73, 70, 70] ++ u32le (36 + samples.length * 2)
          ++ [87, 65, 86, 69] ++ [102, 109, 116, 32] ++ u32le 16 ++ u16le 1
          ++ u16le numChannels ++ u32le sampleRate
          ++ u32le (sampleRate * numChannels * 2) ++ u16le (numChannels * 2)
          ++ u16le 16 ++ [100, 97, 116, 97]
          ++ u32le (samples.length * 2) := by
  refine ⟨_, encodeWAV_eq samples sampleRate numChannels, ?_⟩
  rw [List.take_append_of_le_length (by rw [headerBytes_length]),
    List.take_of_length_le (by rw [headerBytes_length])]
  rfl

/-- C1 witness: the spec's header literal check, at the empty sample buffer
with sampleRate 24000 and one channel; the hard equality shows the output
is exactly 44 bytes with ChunkSize 36 and Subchunk2Size 0. -/
theorem encodeWAV_header_canonical_witness :
    (24000 : Nat) < 4294967296 ∧ (1 : Nat) * 2 < 65536 ∧
    (24000 : Nat) * 1 * 2 < 4294967296 ∧
    36 + (List.length ([] : List Int)) * 2 < 4294967296 ∧
    encodeWAV ([] : List Int) 24000 1
      = .ok [82, 73, 70, 70, 36, 0, 0, 0, 87, 65, 86, 69, 102, 109, 116, 32,
             16, 0, 0, 0, 1, 0, 1, 0, 192, 93, 0, 0, 128, 187, 0, 0, 2, 0,
             16, 0, 100, 97, 116, 97, 0, 0, 0, 0] ∧
    (∃ buf, encodeWAV ([] : List Int) 24000 1 = .ok buf ∧
      buf.take 44
        = [82, 73, 70, 70] ++ u32le (36 + (List.length ([] : List Int)) * 2)
          ++ [87, 65, 86, 69] ++ [102, 109, 116, 32] ++ u32le 16 ++ u16le 1
          ++ u16le 1 ++ u32le 24000 ++ u32le (24000 * 1 * 2) ++ u16le (1 * 2)
          ++ u16le 16 ++ [100, 97, 116, 97]
          ++ u32le ((List.length ([] : List Int)) * 2)) :=
  ⟨by decide, by decide, by decide, by decide, rfl,
    encodeWAV_header_canonical [] 24000 1 (by decide) (by decide)
      (by decide) (by decide)⟩

/-- C2: the spec's known-vector end-to-end check: base64 "AQACAAMABAA="
decodes to bytes 01 00 02 00 03 00 04 00, reinterprets to samples
[1, 2, 3, 4], and encodes to a 52-byte WAV whose Subchunk2Size field
(offset 40, LE u32) is 8 and whose last 8 bytes are the sample data. -/
theorem knownVector_endToEnd :
    decode "AQACAAMABAA=" = .ok [1, 0, 2, 0, 3, 0, 4, 0] ∧
    bytesToInt16 [1, 0, 2, 0, 3, 0, 4, 0] = .ok [1, 2, 3, 4] ∧
    ∃ buf, createWavBlob "AQACAAMABAA=" = .ok buf ∧
      buf.length = 52 ∧ (buf.drop 40).take 4 = [8, 0, 0, 0] ∧
      buf.drop 44 = [1, 0, 2, 0, 3, 0, 4, 0] := by
  refine ⟨rfl, rfl, _,
    @createWavBlob_eq "AQACAAMABAA=" [1, 0, 2, 0, 3, 0, 4, 0]
      [1, 2, 3, 4] rfl rfl, by decide, by decide, by decide⟩

/-- C3: for every input whose decoded byte length is even, the output length
is `44 + 2 * sampleCount` with `sampleCount = byteLength / 2`. -/
theorem outputLength (s : String) (bs : List Nat)
    (hd : decode s = .ok bs) (he : bs.length % 2 = 0) :
    ∃ buf, createWavBlob s = .ok buf ∧
      buf.length = 44 + 2 * (bs.length / 2) := by
  obtain ⟨smp, hs, hlen, _, _⟩ := bytesToInt16_even bs (decode_lt hd) he
  refine ⟨_, createWavBlob_eq hd hs, ?_⟩
  rw [List.length_append, headerBytes_length, sampleBytes_length, hlen]
  omega

/-- C3 witness: instantiated at the known vector. -/
theorem outputLength_witness :
    decode "AQACAAMABAA=" = .ok [1, 0, 2, 0, 3, 0, 4, 0] ∧
    ([1, 0, 2, 0, 3, 0, 4, 0] : List Nat).length % 2 = 0 ∧
    ∃ buf, createWavBlob "AQACAAMABAA=" = .ok buf ∧
      buf.length
        = 44 + 2 * (([1, 0, 2, 0, 3, 0, 4, 0] : List Nat).length / 2) :=
  ⟨rfl, by decide,
    outputLength "AQACAAMABAA=" [1, 0, 2, 0, 3, 0, 4, 0] rfl (by decide)⟩

/-- C4: a decoded byte buffer of odd length makes the reinterpretation step
fail with the odd-length error (`Int16Array` over an odd-length buffer
throws), so the pipeline never truncates or pads. -/
theorem oddLengthRejection (s : String) (bs : List Nat)
    (hd : decode s = .ok bs) (ho : bs.length % 2 = 1) :
    createWavBlob s = .error .malformedAudioError :=
  createWavBlob_odd hd ho

/-- C4 witness: "AAAA" decodes to the three bytes 00 00 00 and is
rejected. -/
theorem oddLengthRejection_witness :
    decode "AAAA" = .ok [0, 0, 0] ∧
    ([0, 0, 0] : List Nat).length % 2 = 1 ∧
    createWavBlob "AAAA" = .error .malformedAudioError :=
  ⟨rfl, by decide, oddLengthRejection "AAAA" [0, 0, 0] rfl (by decide)⟩

/-- C5 counterexample: `encodeWAV` called with sampleRate 0 and
numChannels 0 does not fail; it produces a full 44-byte header whose
NumChannels, SampleRate and ByteRate fields are zero. -/
theorem zeroFormatAccepted_counterexample :
    encodeWAV ([] : List Int) 0 0
      = .ok [82, 73, 70, 70, 36, 0, 0, 0, 87, 65, 86, 69, 102, 109, 116, 32,
             16, 0, 0, 0, 1, 0, 0, 0, 0, 0, 0, 0, 0, 0, 0, 0, 0, 0, 16, 0,
             100, 97, 116, 97, 0, 0, 0, 0] := rfl

/-- C5 amended: `encodeWAV` performs no validation of the sample rate or
channel count; with both zero it still succeeds, writing the zero values
into the NumChannels, SampleRate and ByteRate header fields. -/
theorem encodeWAV_acceptsZeroFormat (samples : List Int) :
    ∃ buf, encodeWAV samples 0 0 = .ok buf ∧
      buf.take 44 = headerBytes samples.length 0 0 :=
  ⟨_, encodeWAV_eq samples 0 0, by
    rw [List.take_append_of_le_length (by rw [headerBytes_length]),
      List.take_of_length_le (by rw [headerBytes_length])]⟩

/-- C6: for every even-length decoded byte buffer, each consecutive byte
pair `(lo, hi)` becomes the little-endian two's-complement signed sample
`toInt16 lo hi` (range -32768..32767), and the bytes after the 44-byte
header of the output are exactly the input bytes, unchanged and in
order. -/
theorem pcmReinterpretationLE (s : String) (bs : List Nat)
    (hd : decode s = .ok bs) (he : bs.length % 2 = 0) :
    ∃ smp buf, bytesToInt16 bs = .ok smp ∧
      (∀ i, i < smp.length →
        smp.getD i 0 = toInt16 (bs.getD (2 * i) 0) (bs.getD (2 * i + 1) 0) ∧
        -32768 ≤ smp.getD i 0 ∧ smp.getD i 0 < 32768) ∧
      createWavBlob s = .ok buf ∧ buf.drop 44 = bs := by
  obtain ⟨smp, hs, _, hsb, hget⟩ := bytesToInt16_even bs (decode_lt hd) he
  refine ⟨smp, _, hs, hget, createWavBlob_eq hd hs, ?_⟩
  rw [List.drop_append_of_le_length (by rw [headerBytes_length]),
    List.drop_eq_nil_of_le (by rw [headerBytes_length]),
    List.nil_append, hsb]

/-- C6 witness: the spec's endianness vector: bytes 0x34 0x12 (base64
"NBI=") give the sample 0x1234 = 4660, not 0x3412. -/
theorem pcmReinterpretationLE_witness :
    decode "NBI=" = .ok [52, 18] ∧
    ([52, 18] : List Nat).length % 2 = 0 ∧
    bytesToInt16 [52, 18] = .ok [4660] ∧
    toInt16 52 18 = 4660 ∧
    (∃ smp buf, bytesToInt16 [52, 18] = .ok smp ∧
      (∀ i, i < smp.length →
        smp.getD i 0
          = toInt16 (([52, 18] : List Nat).getD (2 * i) 0)
              (([52, 18] : List Nat).getD (2 * i + 1) 0) ∧
        -32768 ≤ smp.getD i 0 ∧ smp.getD i 0 < 32768) ∧
      createWavBlob "NBI=" = .ok buf ∧ buf.drop 44 = [52, 18]) :=
  ⟨rfl, by decide, rfl, by decide,
    pcmReinterpretationLE "NBI=" [52, 18] rfl (by decide)⟩

/-- C7 counterexample: a sample buffer of 2^31 zero samples (dataBytes
= 2^32) is not rejected: `encodeWAV` succeeds, and both size fields wrap
modulo 2^32 (Subchunk2Size bytes 00 00 00 00, ChunkSize bytes
36 00 00 00). -/
theorem overflowWrap_counterexample :
    encodeWAV (List.replicate 2147483648 (0 : Int)) 24000 1
      = .ok (headerBytes 2147483648 24000 1
          ++ sampleBytes (List.replicate 2147483648 0)) ∧
    (headerBytes 2147483648 24000 1).drop 40 = [0, 0, 0, 0] ∧
    ((headerBytes 2147483648 24000 1).drop 4).take 4 = [36, 0, 0, 0] := by
  refine ⟨?_, ?_, ?_⟩
  · have h := encodeWAV_eq (List.replicate 2147483648 (0 : Int)) 24000 1
    rwa [List.length_replicate] at h
  · rw [headerBytes_drop40]; decide
  · rw [headerBytes_drop4_take4]; decide

/-- C7 amended: `encodeWAV` never rejects an oversized sample buffer; the
ChunkSize and Subchunk2Size fields are always written modulo 2^32 (the
`DataView.setUint32` conversion), wrapping silently when
`dataBytes = sampleCount * 2` reaches 2^32. -/
theorem sizeFieldsWrapModulo (samples : List Int) (r c : Nat) :
    ∃ buf, encodeWAV samples r c = .ok buf ∧
      (buf.drop 40).take 4 = u32le (samples.length * 2) ∧
      (buf.drop 4).take 4 = u32le (36 + samples.length * 2) := by
  refine ⟨_, encodeWAV_eq samples r c, ?_, ?_⟩
  · rw [List.drop_append_of_le_length (by rw [headerBytes_length]; omega),
      headerBytes_drop40,
      List.take_append_of_le_length (by simp [u32le]),
      List.take_of_length_le (by simp [u32le])]
  · rw [List.drop_append_of_le_length (by rw [headerBytes_length]; omega),
      List.take_append_of_le_length
        (by rw [List.length_drop, headerBytes_length]; omega),
      headerBytes_drop4_take4]

/-- C8: every successful `createWavBlob` output has SampleRate field
(offset 24, LE u32) 24000 and NumChannels field (offset 22, LE u16) 1,
hard-baked in the facade regardless of the input. -/
theorem facadeFixedFormat (s : String) (buf : Buf)
    (h : createWavBlob s = .ok buf) :
    (buf.drop 24).take 4 = [192, 93, 0, 0] ∧
    (buf.drop 22).take 2 = [1, 0] := by
  rw [createWavBlob] at h
  rcases hd : decode s with e | bs
  · rw [hd, err_bind] at h; exact absurd h (by simp)
  rw [hd, ok_bind] at h
  rcases hs : bytesToInt16 bs with e | smp
  · rw [hs, err_bind] at h; exact absurd h (by simp)
  rw [hs, ok_bind, encodeWAV_eq] at h
  obtain rfl : headerBytes smp.length 24000 1 ++ sampleBytes smp = buf := by
    simpa using h
  constructor
  · rw [List.drop_append_of_le_length (by rw [headerBytes_length]; omega),
      List.take_append_of_le_length
        (by rw [List.length_drop, headerBytes_length]; omega),
      headerBytes_drop24_take4]
  · rw [List.drop_append_of_le_length (by rw [headerBytes_length]; omega),
      List.take_append_of_le_length
        (by rw [List.length_drop, headerBytes_length]; omega),
      headerBytes_drop22_take2]

/-- C8 witness: the empty input already carries the fixed format. -/
theorem facadeFixedFormat_witness :
    createWavBlob ""
      = .ok [82, 73, 70, 70, 36, 0, 0, 0, 87, 65, 86, 69, 102, 109, 116, 32,
             16, 0, 0, 0, 1, 0, 1, 0, 192, 93, 0, 0, 128, 187, 0, 0, 2, 0,
             16, 0, 100, 97, 116, 97, 0, 0, 0, 0] ∧
    (([82, 73, 70, 70, 36, 0, 0, 0, 87, 65, 86, 69, 102, 109, 116, 32,
       16, 0, 0, 0, 1, 0, 1, 0, 192, 93, 0, 0, 128, 187, 0, 0, 2, 0,
       16, 0, 100, 97, 116, 97, 0, 0, 0, 0] : Buf).drop 24).take 4
      = [192, 93, 0, 0] ∧
    (([82, 73, 70, 70, 36, 0, 0, 0, 87, 65, 86, 69, 102, 109, 116, 32,
       16, 0, 0, 0, 1, 0, 1, 0, 192, 93, 0, 0, 128, 187, 0, 0, 2, 0,
       16, 0, 100, 97, 116, 97, 0, 0, 0, 0] : Buf).drop 22).take 2
      = [1, 0] := by
  refine ⟨rfl, facadeFixedFormat "" _ rfl⟩

/-- C9: the encoder is deterministic: the pipeline is a pure function of
the base64 string (the rate and channel count are fixed constants), so two
runs on equal inputs give byte-identical results. -/
theorem encoderDeterministic (s1 s2 : String) (h : s1 = s2) :
    createWavBlob s1 = createWavBlob s2 := by rw [h]

/-- C9 witness. -/
theorem encoderDeterministic_witness :
    createWavBlob "AQACAAMABAA=" = createWavBlob "AQACAAMABAA=" :=
  encoderDeterministic "AQACAAMABAA=" "AQACAAMABAA=" rfl

/-- C10: `encodeWAV` is total and never writes out of bounds: every
`DataView` setter in the embedding fails (`rangeError`, the JS throw) on
an out-of-range offset, so a successful result of the allocated size
`44 + 2 * n` proves each of the 13 header writes and each sample write
landed inside the buffer, for every sample array. -/
theorem encodeWAV_total_inBounds (samples : List Int) (r c : Nat) :
    ∃ buf, encodeWAV samples r c = .ok buf ∧
      buf.length = 44 + samples.length * 2 :=
  ⟨_, encodeWAV_eq samples r c, by
    rw [List.length_append, headerBytes_length, sampleBytes_length]⟩

end MovieRecap
